import Mathlib

/-!
# mqtt-transport: connection session and configuration

A shallow embedding of `config.go` (`Config.MaxMessageBytes`) and `conn.go`
(`Service.newConn`, `Conn.Process`, `Conn.onReceive`, `Conn.Close`).

The session talks to four collaborators that are not part of these sources: the
rate limiter (`rate.Limiter.Limit`), the packet decoder (`mqtt.DecodePacket`),
the injected `MQTTHandler` and the transport (`net.Conn`).  Each of them is a
parameter of the model (`Env`): a deterministic function of what the session
has asked of that collaborator so far.  What the session does is recorded in
`State`, which is passed explicitly.

Go `error` values are `Option Err`, `none` being `nil`.  The `for` loop of
`Process` is run with a bound on the number of iterations (`Process.loop`).

The code is embedded twice.  `Conn.onReceive`, `Conn.Process.iteration`,
`Conn.Process.loop` and `Conn.Process` are the runs in which every collaborator
call returns.  `Unwind.Conn.onReceive`, ..., `Unwind.Conn.Process` add the other
way a call can end: it panics, the stack unwinds to the deferred `c.Close()`,
whose `recover()` swallows the panic, and `Process` returns nil.  Which calls
panic is one more parameter (`Panics`); when none does, the two embeddings
agree (`unwind_process_of_no_panic`).
-/

namespace MqttTransport

/-! ## config.go -/

/-- The constant `maxMessageSize` of `config.go`. -/
def maxMessageSize : Int := 65536

/-- Go `LimitConfig`; Go `int` fields are integers. -/
structure LimitConfig where
  MessageSize : Int
  ReadRate : Int
  FlushRate : Int
  deriving DecidableEq, Repr

/-- Go `Config`; the parsed listen address is kept as text (`none` is a nil pointer). -/
structure Config where
  Limit : LimitConfig
  ListenAddr : Option String
  deriving DecidableEq, Repr

/-- Go `(*Config).MaxMessageBytes`. -/
def Config.MaxMessageBytes (c : Config) : Int :=
  if c.Limit.MessageSize ≤ 0 ∨ c.Limit.MessageSize > maxMessageSize then
    maxMessageSize
  else
    c.Limit.MessageSize

/-- Go `(*Config).Addr`. -/
def Config.Addr (c : Config) : Option String :=
  c.ListenAddr

/-! ## Packets and acknowledgements (package `mqtt`) -/

/-- A non-nil Go `error`. -/
abbrev Err := String

deriving instance DecidableEq for Except

/-- Modelled from the spec: the `mqtt.Connect` packet (`Connect{credentials}`); the
type declaration lives in `pkg/network/mqtt`, not in these sources.  The session
only hands it to the handler. -/
structure Connect where
  Username : String
  Password : String
  deriving DecidableEq, Repr

/-- Modelled from the spec: one `(topic, requestedQoS)` entry of a Subscribe or
Unsubscribe packet; `conn.go` reads its fields `Topic` and `Qos` (a `uint8`). -/
structure TopicQOSTuple where
  Qos : Nat
  Topic : String
  deriving DecidableEq, Repr

/-- Modelled from the spec: the `mqtt.Subscribe` packet
(`Subscribe{messageId, list of (topic, requestedQoS)}`). -/
structure Subscribe where
  MessageID : Nat
  Subscriptions : List TopicQOSTuple
  deriving DecidableEq, Repr

/-- Modelled from the spec: the `mqtt.Unsubscribe` packet
(`Unsubscribe{messageId, list of topic}`); `conn.go` reads `sub.Topic` of each entry. -/
structure Unsubscribe where
  MessageID : Nat
  Topics : List TopicQOSTuple
  deriving DecidableEq, Repr

/-- Modelled from the spec: the fixed header of a packet; `conn.go` reads `Header.QOS`. -/
structure Header where
  QOS : Nat
  deriving DecidableEq, Repr

/-- Modelled from the spec: the `mqtt.Publish` packet
(`Publish{messageId, topic, payload, QoS}`). -/
structure Publish where
  Header : Header
  MessageID : Nat
  Topic : String
  Payload : String
  deriving DecidableEq, Repr

/-- Modelled from the spec: the decoded `mqtt.Message`, a sum over the packet kinds
the `switch` of `onReceive` names; `Other` stands for every packet type the
`switch` has no case for. -/
inductive Message where
  | Connect (packet : Connect)
  | Subscribe (packet : Subscribe)
  | Unsubscribe (packet : Unsubscribe)
  | Pingreq
  | Disconnect
  | Publish (packet : Publish)
  | Other (type : Nat)
  deriving DecidableEq, Repr

/-- Modelled from the spec: the acknowledgement frames `conn.go` builds
(`mqtt.Connack`, `mqtt.Suback`, `mqtt.Unsuback`, `mqtt.Pingresp`, `mqtt.Puback`). -/
inductive Ack where
  | Connack (ReturnCode : Nat)
  | Suback (MessageID : Nat) (Qos : List Nat)
  | Unsuback (MessageID : Nat)
  | Pingresp
  | Puback (MessageID : Nat)
  deriving DecidableEq, Repr

/-! ## Collaborators and session state -/

/-- One call of the session into the handler, with the error it returned. -/
inductive HandlerCall where
  | OnConnect (packet : Connect) (result : Option Err)
  | OnSubscribe (topic : String) (result : Option Err)
  | OnUnsubscribe (topic : String) (result : Option Err)
  | OnPublish (packet : Publish) (result : Option Err)
  deriving DecidableEq, Repr

/-- The injected `MQTTHandler` interface (declared outside these sources): each
operation returns an error or nil; the answer may depend on every call made so far. -/
structure MQTTHandler where
  OnConnect : List HandlerCall → Connect → Option Err
  OnSubscribe : List HandlerCall → String → Option Err
  OnUnsubscribe : List HandlerCall → String → Option Err
  OnPublish : List HandlerCall → Publish → Option Err

/-- The collaborators of one session.
* `Limit k`: what the `k`-th call of `c.limit.Limit()` answers (`true`: quota exhausted);
* `DecodePacket k maxSize`: what the `k`-th call of `mqtt.DecodePacket(reader, maxSize)` returns;
* `EncodeTo written ack`: the error of `ack.EncodeTo(c.socket)` after the earlier writes `written`. -/
structure Env where
  handler : MQTTHandler
  Limit : Nat → Bool
  DecodePacket : Nat → Int → Except Err Message
  EncodeTo : List (Ack × Option Err) → Ack → Option Err

/-- Everything the session has done so far, and the counter `Service.connections`. -/
structure State where
  connections : Int
  deadlines : Nat
  limitCalls : Nat
  sleeps : Nat
  decoded : List (Except Err Message)
  handlerLog : List HandlerCall
  written : List (Ack × Option Err)
  closed : Nat
  deriving DecidableEq, Repr

/-! ## conn.go -/

/-- The constant `defaultReadRate` of `conn.go`. -/
def defaultReadRate : Int := 100000

/-- Two's-complement wrap-around of a 64-bit signed integer (`atomic.AddInt64`). -/
def wrapInt64 (x : Int) : Int :=
  (x + 2 ^ 63) % 2 ^ 64 - 2 ^ 63

/-- Go `Service`, as far as a session reads it; the mutable field `connections` is in `State`. -/
structure Service where
  config : Config
  deriving DecidableEq, Repr

/-- Go `Conn`: the service it belongs to and the rate its limiter was created with
(`rate.New(readRate, time.Second)`); socket, limiter and handler are in `Env`. -/
structure Conn where
  service : Service
  limitRate : Int
  deriving DecidableEq, Repr

/-- Go `(*Service).newConn`. -/
def Service.newConn (s : Service) (st : State) (readRate : Int) : Conn × State :=
  let readRate := if readRate = 0 then defaultReadRate else readRate
  let c : Conn := { service := s, limitRate := readRate }
  -- Increment the connection counter
  (c, { st with connections := wrapInt64 (st.connections + 1) })

/-- Go `ack.EncodeTo(c.socket)`: the frame and the outcome are appended to what was written. -/
def EncodeTo (env : Env) (st : State) (ack : Ack) : State × Option Err :=
  let err := env.EncodeTo st.written ack
  ({ st with written := st.written ++ [(ack, err)] }, err)

/-- The `for _, sub := range packet.Subscriptions` loop of `onReceive`: the handler
log and `ack.Qos` after the remaining subscriptions. -/
def subscribeEach (h : MQTTHandler) :
    List TopicQOSTuple → List HandlerCall → List Nat → List HandlerCall × List Nat
  | [], log, qos => (log, qos)
  | sub :: rest, log, qos =>
    match h.OnSubscribe log sub.Topic with
    | some err =>
      -- 0x80 indicate subscription failure
      subscribeEach h rest (log ++ [HandlerCall.OnSubscribe sub.Topic (some err)]) (qos ++ [0x80])
    | none =>
      -- Append the QoS
      subscribeEach h rest (log ++ [HandlerCall.OnSubscribe sub.Topic none]) (qos ++ [sub.Qos])

/-- The `for _, sub := range packet.Topics` loop of `onReceive`: the handler log
after the remaining topics (the returned errors are dropped). -/
def unsubscribeEach (h : MQTTHandler) : List TopicQOSTuple → List HandlerCall → List HandlerCall
  | [], log => log
  | sub :: rest, log =>
    match h.OnUnsubscribe log sub.Topic with
    | some err => unsubscribeEach h rest (log ++ [HandlerCall.OnUnsubscribe sub.Topic (some err)])
    | none => unsubscribeEach h rest (log ++ [HandlerCall.OnUnsubscribe sub.Topic none])

/-- Go `(*Conn).onReceive`, when every collaborator call returns: the state afterwards
and the returned error. -/
def Conn.onReceive (env : Env) (st : State) (msg : Message) : State × Option Err :=
  match msg with
  | Message.Connect packet =>
    let r := env.handler.OnConnect st.handlerLog packet
    let st1 := { st with handlerLog := st.handlerLog ++ [HandlerCall.OnConnect packet r] }
    let result : Nat := if r ≠ none then 0x05 else 0
    -- Write the ack
    match EncodeTo env st1 (Ack.Connack result) with
    | (st2, some err) => (st2, some err)
    | (st2, none) => (st2, none)
  | Message.Subscribe packet =>
    -- Subscribe for each subscription
    let (log, qos) := subscribeEach env.handler packet.Subscriptions st.handlerLog []
    let st1 := { st with handlerLog := log }
    -- Acknowledge the subscription
    match EncodeTo env st1 (Ack.Suback packet.MessageID qos) with
    | (st2, some err) => (st2, some err)
    | (st2, none) => (st2, none)
  | Message.Unsubscribe packet =>
    -- Unsubscribe from each subscription
    let st1 := { st with handlerLog := unsubscribeEach env.handler packet.Topics st.handlerLog }
    -- Acknowledge the unsubscription
    match EncodeTo env st1 (Ack.Unsuback packet.MessageID) with
    | (st2, some err) => (st2, some err)
    | (st2, none) => (st2, none)
  | Message.Pingreq =>
    match EncodeTo env st Ack.Pingresp with
    | (st1, some err) => (st1, some err)
    | (st1, none) => (st1, none)
  | Message.Disconnect => (st, none)
  | Message.Publish packet =>
    let r := env.handler.OnPublish st.handlerLog packet
    let st1 := { st with handlerLog := st.handlerLog ++ [HandlerCall.OnPublish packet r] }
    -- Acknowledge the publication
    if packet.Header.QOS > 0 then
      match EncodeTo env st1 (Ack.Puback packet.MessageID) with
      | (st2, some err) => (st2, some err)
      | (st2, none) => (st2, none)
    else
      (st1, none)
  | Message.Other _ => (st, none)

/-- Go `(*Conn).Close`: decrement the connection counter and close the transport.
The error of `c.socket.Close()` is what `Close` returns; `Process` defers `Close`
and drops it. -/
def Conn.Close (st : State) : State :=
  { st with connections := wrapInt64 (st.connections - 1), closed := st.closed + 1 }

/-- How one pass through the body of the `for` loop of `Process` ends: at the
`continue` or at the end of the body (`next`), or at a `return err` (`ret`). -/
inductive Step where
  | next (st : State)
  | ret (st : State) (err : Option Err)
  deriving DecidableEq, Repr

/-- One pass through the body of the `for` loop of `Process`, when every collaborator
call returns. -/
def Conn.Process.iteration (env : Env) (maxSize : Int) (st : State) : Step :=
  -- Set read/write deadlines so we can close dangling connections
  let st1 := { st with deadlines := st.deadlines + 1 }
  let limited := env.Limit st1.limitCalls
  let st2 := { st1 with limitCalls := st1.limitCalls + 1 }
  if limited then
    Step.next { st2 with sleeps := st2.sleeps + 1 }
  else
    -- Decode an incoming MQTT packet
    let r := env.DecodePacket st2.decoded.length maxSize
    let st3 := { st2 with decoded := st2.decoded ++ [r] }
    match r with
    | Except.error err => Step.ret st3 (some err)
    | Except.ok msg =>
      -- Handle the receive
      match Conn.onReceive env st3 msg with
      | (st4, some err) => Step.ret st4 (some err)
      | (st4, none) => Step.next st4

/-- The `for` loop of `Process`, run for at most `fuel` passes: `none` when the
loop is still running after them, otherwise the state and the error returned. -/
def Conn.Process.loop (env : Env) (maxSize : Int) : Nat → State → Option (State × Option Err)
  | 0, _ => none
  | fuel + 1, st =>
    match Conn.Process.iteration env maxSize st with
    | Step.ret st1 err => some (st1, err)
    | Step.next st1 => Conn.Process.loop env maxSize fuel st1

/-- Go `(*Conn).Process`, when every collaborator call returns: the loop, then the
deferred `c.Close()`. -/
def Conn.Process (env : Env) (c : Conn) (fuel : Nat) (st : State) : Option (State × Option Err) :=
  let maxSize := c.service.config.MaxMessageBytes
  match Conn.Process.loop env maxSize fuel st with
  | none => none
  | some (st1, err) => some (Conn.Close st1, err)

/-! ## conn.go, with panics

`Process` starts with `defer c.Close()`, and `Close` starts with `recover()`.  A panic
raised by a collaborator anywhere in the loop body therefore ends the run as well: the
loop is abandoned where it is, `Close` runs, the panic is swallowed, and `Process`
returns the zero value of its result, nil. -/

/-- The collaborator calls of the loop body of `Process` (`onReceive` included). -/
inductive Call where
  | SetDeadline
  | Limit
  | DecodePacket (maxSize : Int)
  | OnConnect (packet : Connect)
  | OnSubscribe (topic : String)
  | OnUnsubscribe (topic : String)
  | OnPublish (packet : Publish)
  | EncodeTo (ack : Ack)
  deriving DecidableEq, Repr

/-- Which collaborator calls panic instead of returning: `panics st call` says whether
`call`, made when the session has done `st`, panics.  A call that panics is not recorded
in the state. -/
abbrev Panics := State → Call → Bool

/-- How a piece of the loop body ends: it returns `value`, or a collaborator call
panicked and the stack unwinds; `st` is what the session had done by then. -/
inductive Outcome (α : Type) where
  | returned (st : State) (value : α)
  | panicked (st : State)
  deriving DecidableEq, Repr

/-- The state an outcome carries. -/
def Outcome.state {α : Type} : Outcome α → State
  | Outcome.returned st _ => st
  | Outcome.panicked st => st

/-- Go `ack.EncodeTo(c.socket)`, which may panic. -/
def Unwind.EncodeTo (panics : Panics) (env : Env) (st : State) (ack : Ack) :
    Outcome (Option Err) :=
  if panics st (Call.EncodeTo ack) then
    Outcome.panicked st
  else
    let err := env.EncodeTo st.written ack
    Outcome.returned { st with written := st.written ++ [(ack, err)] } err

/-- The `for _, sub := range packet.Subscriptions` loop of `onReceive`, where
`OnSubscribe` may panic: the state and `ack.Qos` after the remaining subscriptions. -/
def Unwind.subscribeEach (panics : Panics) (h : MQTTHandler) :
    List TopicQOSTuple → State → List Nat → Outcome (List Nat)
  | [], st, qos => Outcome.returned st qos
  | sub :: rest, st, qos =>
    if panics st (Call.OnSubscribe sub.Topic) then
      Outcome.panicked st
    else
      match h.OnSubscribe st.handlerLog sub.Topic with
      | some err =>
        -- 0x80 indicate subscription failure
        Unwind.subscribeEach panics h rest
          { st with handlerLog :=
              st.handlerLog ++ [HandlerCall.OnSubscribe sub.Topic (some err)] }
          (qos ++ [0x80])
      | none =>
        -- Append the QoS
        Unwind.subscribeEach panics h rest
          { st with handlerLog := st.handlerLog ++ [HandlerCall.OnSubscribe sub.Topic none] }
          (qos ++ [sub.Qos])

/-- The `for _, sub := range packet.Topics` loop of `onReceive`, where `OnUnsubscribe`
may panic: the state after the remaining topics. -/
def Unwind.unsubscribeEach (panics : Panics) (h : MQTTHandler) :
    List TopicQOSTuple → State → Outcome Unit
  | [], st => Outcome.returned st ()
  | sub :: rest, st =>
    if panics st (Call.OnUnsubscribe sub.Topic) then
      Outcome.panicked st
    else
      match h.OnUnsubscribe st.handlerLog sub.Topic with
      | some err =>
        Unwind.unsubscribeEach panics h rest
          { st with handlerLog :=
              st.handlerLog ++ [HandlerCall.OnUnsubscribe sub.Topic (some err)] }
      | none =>
        Unwind.unsubscribeEach panics h rest
          { st with handlerLog := st.handlerLog ++ [HandlerCall.OnUnsubscribe sub.Topic none] }

/-- Go `(*Conn).onReceive`, where the handler and the transport may panic. -/
def Unwind.Conn.onReceive (panics : Panics) (env : Env) (st : State) (msg : Message) :
    Outcome (Option Err) :=
  match msg with
  | Message.Connect packet =>
    if panics st (Call.OnConnect packet) then
      Outcome.panicked st
    else
      let r := env.handler.OnConnect st.handlerLog packet
      let st1 := { st with handlerLog := st.handlerLog ++ [HandlerCall.OnConnect packet r] }
      let result : Nat := if r ≠ none then 0x05 else 0
      -- Write the ack
      match Unwind.EncodeTo panics env st1 (Ack.Connack result) with
      | Outcome.panicked st2 => Outcome.panicked st2
      | Outcome.returned st2 (some err) => Outcome.returned st2 (some err)
      | Outcome.returned st2 none => Outcome.returned st2 none
  | Message.Subscribe packet =>
    -- Subscribe for each subscription
    match Unwind.subscribeEach panics env.handler packet.Subscriptions st [] with
    | Outcome.panicked st1 => Outcome.panicked st1
    | Outcome.returned st1 qos =>
      -- Acknowledge the subscription
      match Unwind.EncodeTo panics env st1 (Ack.Suback packet.MessageID qos) with
      | Outcome.panicked st2 => Outcome.panicked st2
      | Outcome.returned st2 (some err) => Outcome.returned st2 (some err)
      | Outcome.returned st2 none => Outcome.returned st2 none
  | Message.Unsubscribe packet =>
    -- Unsubscribe from each subscription
    match Unwind.unsubscribeEach panics env.handler packet.Topics st with
    | Outcome.panicked st1 => Outcome.panicked st1
    | Outcome.returned st1 _ =>
      -- Acknowledge the unsubscription
      match Unwind.EncodeTo panics env st1 (Ack.Unsuback packet.MessageID) with
      | Outcome.panicked st2 => Outcome.panicked st2
      | Outcome.returned st2 (some err) => Outcome.returned st2 (some err)
      | Outcome.returned st2 none => Outcome.returned st2 none
  | Message.Pingreq =>
    match Unwind.EncodeTo panics env st Ack.Pingresp with
    | Outcome.panicked st1 => Outcome.panicked st1
    | Outcome.returned st1 (some err) => Outcome.returned st1 (some err)
    | Outcome.returned st1 none => Outcome.returned st1 none
  | Message.Disconnect => Outcome.returned st none
  | Message.Publish packet =>
    if panics st (Call.OnPublish packet) then
      Outcome.panicked st
    else
      let r := env.handler.OnPublish st.handlerLog packet
      let st1 := { st with handlerLog := st.handlerLog ++ [HandlerCall.OnPublish packet r] }
      -- Acknowledge the publication
      if packet.Header.QOS > 0 then
        match Unwind.EncodeTo panics env st1 (Ack.Puback packet.MessageID) with
        | Outcome.panicked st2 => Outcome.panicked st2
        | Outcome.returned st2 (some err) => Outcome.returned st2 (some err)
        | Outcome.returned st2 none => Outcome.returned st2 none
      else
        Outcome.returned st1 none
  | Message.Other _ => Outcome.returned st none

/-- How one pass through the body of the `for` loop of `Process` ends when calls may
panic: as in `Step`, or by a panic. -/
inductive Unwind.Step where
  | next (st : State)
  | ret (st : State) (err : Option Err)
  | panic (st : State)
  deriving DecidableEq, Repr

/-- One pass through the body of the `for` loop of `Process`, where any collaborator
call may panic. -/
def Unwind.Conn.Process.iteration (panics : Panics) (env : Env) (maxSize : Int) (st : State) :
    Unwind.Step :=
  -- Set read/write deadlines so we can close dangling connections
  if panics st Call.SetDeadline then
    Unwind.Step.panic st
  else
    let st1 := { st with deadlines := st.deadlines + 1 }
    if panics st1 Call.Limit then
      Unwind.Step.panic st1
    else
      let limited := env.Limit st1.limitCalls
      let st2 := { st1 with limitCalls := st1.limitCalls + 1 }
      if limited then
        Unwind.Step.next { st2 with sleeps := st2.sleeps + 1 }
      else
        -- Decode an incoming MQTT packet
        if panics st2 (Call.DecodePacket maxSize) then
          Unwind.Step.panic st2
        else
          let r := env.DecodePacket st2.decoded.length maxSize
          let st3 := { st2 with decoded := st2.decoded ++ [r] }
          match r with
          | Except.error err => Unwind.Step.ret st3 (some err)
          | Except.ok msg =>
            -- Handle the receive
            match Unwind.Conn.onReceive panics env st3 msg with
            | Outcome.panicked st4 => Unwind.Step.panic st4
            | Outcome.returned st4 (some err) => Unwind.Step.ret st4 (some err)
            | Outcome.returned st4 none => Unwind.Step.next st4

/-- The `for` loop of `Process`, run for at most `fuel` passes: `none` when the loop is
still running after them, otherwise how it was left: by `return err` or by a panic. -/
def Unwind.Conn.Process.loop (panics : Panics) (env : Env) (maxSize : Int) :
    Nat → State → Option (Outcome (Option Err))
  | 0, _ => none
  | fuel + 1, st =>
    match Unwind.Conn.Process.iteration panics env maxSize st with
    | Unwind.Step.ret st1 err => some (Outcome.returned st1 err)
    | Unwind.Step.panic st1 => some (Outcome.panicked st1)
    | Unwind.Step.next st1 => Unwind.Conn.Process.loop panics env maxSize fuel st1

/-- Go `(*Conn).Process`: the loop, then the deferred `c.Close()`.  After a `return err`
the result is `err`; after a panic `Close` recovers it and the result is nil. -/
def Unwind.Conn.Process (panics : Panics) (env : Env) (c : Conn) (fuel : Nat) (st : State) :
    Option (State × Option Err) :=
  let maxSize := c.service.config.MaxMessageBytes
  match Unwind.Conn.Process.loop panics env maxSize fuel st with
  | none => none
  | some (Outcome.returned st1 err) => some (Conn.Close st1, err)
  | some (Outcome.panicked st1) => some (Conn.Close st1, none)

/-- The state a step carries. -/
def Unwind.Step.state : Unwind.Step → State
  | Unwind.Step.next st => st
  | Unwind.Step.ret st _ => st
  | Unwind.Step.panic st => st

/-! ## Auxiliary definitions for the statements -/

/-- The errors `OnSubscribe` returns, one per subscription, when the handler is
called on the topics in order starting from the log `log`. -/
def subscribeResults (h : MQTTHandler) : List TopicQOSTuple → List HandlerCall → List (Option Err)
  | [], _ => []
  | sub :: rest, log =>
    h.OnSubscribe log sub.Topic ::
      subscribeResults h rest (log ++ [HandlerCall.OnSubscribe sub.Topic (h.OnSubscribe log sub.Topic)])

/-- The errors `OnUnsubscribe` returns, one per topic, when the handler is called
on the topics in order starting from the log `log`. -/
def unsubscribeResults (h : MQTTHandler) : List TopicQOSTuple → List HandlerCall → List (Option Err)
  | [], _ => []
  | sub :: rest, log =>
    h.OnUnsubscribe log sub.Topic ::
      unsubscribeResults h rest (log ++ [HandlerCall.OnUnsubscribe sub.Topic (h.OnUnsubscribe log sub.Topic)])

/-- The state after the top of a pass of the loop in which the limiter admitted the
read and `DecodePacket` returned `r`: one more deadline, one more limiter call, one
more decoder result; nothing else changes. -/
def State.afterDecode (st : State) (r : Except Err Message) : State :=
  { st with
    deadlines := st.deadlines + 1,
    limitCalls := st.limitCalls + 1,
    decoded := st.decoded ++ [r] }

/-- The state after a pass of the loop in which the limiter reported the quota
exhausted: one more deadline, one more limiter call, one more sleep; nothing else changes. -/
def State.afterThrottle (st : State) : State :=
  { st with
    deadlines := st.deadlines + 1,
    limitCalls := st.limitCalls + 1,
    sleeps := st.sleeps + 1 }

/-- What a session did apart from throttling: the decoder results, the handler
calls, the writes, the number of `Close` calls and the connection counter. -/
def State.session (st : State) :
    List (Except Err Message) × List HandlerCall × List (Ack × Option Err) × Nat × Int :=
  (st.decoded, st.handlerLog, st.written, st.closed, st.connections)

/-- The same collaborators with a limiter that never reports the quota exhausted. -/
def Env.unthrottled (env : Env) : Env :=
  { env with Limit := fun _ => false }

/-- The message kinds for which `onReceive` writes an acknowledgement. -/
def Message.acknowledged : Message → Bool
  | Message.Connect _ => true
  | Message.Subscribe _ => true
  | Message.Unsubscribe _ => true
  | Message.Pingreq => true
  | Message.Publish packet => decide (packet.Header.QOS > 0)
  | Message.Disconnect => false
  | Message.Other _ => false

/-! ## Example sessions -/

/-- A handler that rejects the Connect of user `"mallory"` and the topic `"b"`, and
accepts everything else. -/
def exampleHandler : MQTTHandler where
  OnConnect := fun _ packet => if packet.Username = "mallory" then some "unauthorized" else none
  OnSubscribe := fun _ topic => if topic = "b" then some "forbidden" else none
  OnUnsubscribe := fun _ topic => if topic = "b" then some "forbidden" else none
  OnPublish := fun _ _ => none

/-- Collaborators that follow a script: the limiter answers `limits` in turn (then
admits), the decoder returns `packets` in turn (then fails with `"EOF"`), the writes
fail as `writes` says in turn (then succeed). -/
def scripted (limits : List Bool) (packets : List (Except Err Message))
    (writes : List (Option Err)) : Env where
  handler := exampleHandler
  Limit := fun k => limits.getD k false
  DecodePacket := fun k _ => packets.getD k (Except.error "EOF")
  EncodeTo := fun written _ => writes.getD written.length none

/-- The state of a service with no connection and a session that has done nothing. -/
def State.init : State :=
  { connections := 0, deadlines := 0, limitCalls := 0, sleeps := 0, decoded := [],
    handlerLog := [], written := [], closed := 0 }

/-- The service `NewService` builds (limits 1000, 1000, 1000). -/
def exampleService : Service :=
  { config := { Limit := { MessageSize := 1000, ReadRate := 1000, FlushRate := 1000 },
                ListenAddr := some ":1883" } }

/-- A connection of `exampleService`. -/
def exampleConn : Conn :=
  { service := exampleService, limitRate := 1000 }

/-- A session whose first read fails: the peer closed the transport at once. -/
def eofSession : Env :=
  scripted [] [] []

/-- A session throttled in its first pass; then the peer closes the transport. -/
def throttledSession : Env :=
  scripted [true] [] []

/-- A session that sends Disconnect, then a Connect, and then closes the transport. -/
def disconnectSession : Env :=
  scripted [] [Except.ok Message.Disconnect, Except.ok (Message.Connect ⟨"u", "p"⟩)] []

/-- A session that sends a Connect the handler rejects, then closes the transport. -/
def rejectedSession : Env :=
  scripted [] [Except.ok (Message.Connect ⟨"mallory", "x"⟩)] []

/-- A session that sends a ping whose answer cannot be written. -/
def brokenPipeSession : Env :=
  scripted [] [Except.ok Message.Pingreq, Except.ok Message.Pingreq] [some "broken pipe"]

/-- A session that publishes with QoS 1 and then sends a ping. -/
def publishSession : Env :=
  scripted [] [Except.ok (Message.Publish ⟨⟨1⟩, 9, "a", "x"⟩), Except.ok Message.Pingreq] []

/-- A session that sends Disconnect, then publishes with QoS 1. -/
def disconnectPublishSession : Env :=
  scripted [] [Except.ok Message.Disconnect, Except.ok (Message.Publish ⟨⟨1⟩, 9, "a", "x"⟩)] []

/-- No collaborator call panics. -/
def noPanic : Panics :=
  fun _ _ => false

/-- The handler panics in `OnPublish`; every other call returns. -/
def panicOnPublish : Panics :=
  fun _ call =>
    match call with
    | Call.OnPublish _ => true
    | _ => false

/-! ## Lemmas -/

theorem subscribeResults_length (h : MQTTHandler) (subs : List TopicQOSTuple) :
    ∀ log, (subscribeResults h subs log).length = subs.length := by
  induction subs with
  | nil => intro log; rfl
  | cons sub rest ih => intro log; simp [subscribeResults, ih]

theorem subscribeEach_eq (h : MQTTHandler) (subs : List TopicQOSTuple) :
    ∀ log qos, subscribeEach h subs log qos =
      (log ++ List.zipWith (fun sub r => HandlerCall.OnSubscribe sub.Topic r) subs
          (subscribeResults h subs log),
       qos ++ List.zipWith (fun sub r => if r = none then sub.Qos else 0x80) subs
          (subscribeResults h subs log)) := by
  induction subs with
  | nil => intro log qos; simp [subscribeEach, subscribeResults]
  | cons sub rest ih =>
    intro log qos
    unfold subscribeEach
    cases hr : h.OnSubscribe log sub.Topic with
    | none => simp [ih, subscribeResults, hr]
    | some err => simp [ih, subscribeResults, hr]

theorem subscribeResults_getElem (h : MQTTHandler) (subs : List TopicQOSTuple) :
    ∀ log i sub, subs[i]? = some sub →
      (subscribeResults h subs log)[i]? =
        some (h.OnSubscribe
          (log ++ (List.zipWith (fun sub r => HandlerCall.OnSubscribe sub.Topic r) subs
            (subscribeResults h subs log)).take i) sub.Topic) := by
  induction subs with
  | nil => intro log i sub hi; simp at hi
  | cons s rest ih =>
    intro log i sub hi
    cases i with
    | zero =>
      simp at hi
      subst hi
      simp [subscribeResults]
    | succ j =>
      simp at hi
      have := ih (log ++ [HandlerCall.OnSubscribe s.Topic (h.OnSubscribe log s.Topic)]) j sub hi
      simp [subscribeResults, this]

theorem unsubscribeResults_length (h : MQTTHandler) (subs : List TopicQOSTuple) :
    ∀ log, (unsubscribeResults h subs log).length = subs.length := by
  induction subs with
  | nil => intro log; rfl
  | cons sub rest ih => intro log; simp [unsubscribeResults, ih]

theorem unsubscribeEach_eq (h : MQTTHandler) (subs : List TopicQOSTuple) :
    ∀ log, unsubscribeEach h subs log =
      log ++ List.zipWith (fun sub r => HandlerCall.OnUnsubscribe sub.Topic r) subs
          (unsubscribeResults h subs log) := by
  induction subs with
  | nil => intro log; simp [unsubscribeEach, unsubscribeResults]
  | cons sub rest ih =>
    intro log
    unfold unsubscribeEach
    cases hr : h.OnUnsubscribe log sub.Topic with
    | none => simp [ih, unsubscribeResults, hr]
    | some err => simp [ih, unsubscribeResults, hr]

theorem unsubscribeResults_getElem (h : MQTTHandler) (subs : List TopicQOSTuple) :
    ∀ log i sub, subs[i]? = some sub →
      (unsubscribeResults h subs log)[i]? =
        some (h.OnUnsubscribe
          (log ++ (List.zipWith (fun sub r => HandlerCall.OnUnsubscribe sub.Topic r) subs
            (unsubscribeResults h subs log)).take i) sub.Topic) := by
  induction subs with
  | nil => intro log i sub hi; simp at hi
  | cons s rest ih =>
    intro log i sub hi
    cases i with
    | zero =>
      simp at hi
      subst hi
      simp [unsubscribeResults]
    | succ j =>
      simp at hi
      have := ih (log ++ [HandlerCall.OnUnsubscribe s.Topic (h.OnUnsubscribe log s.Topic)]) j sub hi
      simp [unsubscribeResults, this]

/-- What `onReceive` does with a write: it returns the error of the write. -/
theorem encodeTo_match (env : Env) (st : State) (ack : Ack) :
    (match EncodeTo env st ack with
      | (st2, some err) => (st2, some err)
      | (st2, none) => (st2, none)) =
    ({ st with written := st.written ++ [(ack, env.EncodeTo st.written ack)] },
      env.EncodeTo st.written ack) := by
  unfold EncodeTo
  cases env.EncodeTo st.written ack <;> rfl

/-- A pass of the loop in which the limiter reports the quota exhausted. -/
theorem iteration_throttled (env : Env) (maxSize : Int) (st : State)
    (hl : env.Limit st.limitCalls = true) :
    Conn.Process.iteration env maxSize st = Step.next st.afterThrottle := by
  simp [Conn.Process.iteration, hl, State.afterThrottle]

/-- A pass of the loop in which the decoder fails. -/
theorem iteration_decodeError (env : Env) (maxSize : Int) (st : State) (e : Err)
    (hl : env.Limit st.limitCalls = false)
    (hd : env.DecodePacket st.decoded.length maxSize = Except.error e) :
    Conn.Process.iteration env maxSize st = Step.ret (st.afterDecode (Except.error e)) (some e) := by
  simp [Conn.Process.iteration, hl, hd, State.afterDecode]

/-- A pass of the loop in which a message is decoded and handed to `onReceive`. -/
theorem iteration_received (env : Env) (maxSize : Int) (st : State) (msg : Message)
    (hl : env.Limit st.limitCalls = false)
    (hd : env.DecodePacket st.decoded.length maxSize = Except.ok msg) :
    Conn.Process.iteration env maxSize st =
      (match (Conn.onReceive env (st.afterDecode (Except.ok msg)) msg).2 with
        | some err => Step.ret (Conn.onReceive env (st.afterDecode (Except.ok msg)) msg).1 (some err)
        | none => Step.next (Conn.onReceive env (st.afterDecode (Except.ok msg)) msg).1) := by
  simp only [Conn.Process.iteration, hl, hd, State.afterDecode]
  rcases h : Conn.onReceive env _ msg with ⟨st4, _ | err⟩ <;> simp

theorem process_of_next (env : Env) (c : Conn) (fuel : Nat) (st st1 : State)
    (h : Conn.Process.iteration env c.service.config.MaxMessageBytes st = Step.next st1) :
    Conn.Process env c (fuel + 1) st = Conn.Process env c fuel st1 := by
  simp [Conn.Process, Conn.Process.loop, h]

theorem process_of_ret (env : Env) (c : Conn) (fuel : Nat) (st st1 : State) (err : Option Err)
    (h : Conn.Process.iteration env c.service.config.MaxMessageBytes st = Step.ret st1 err) :
    Conn.Process env c (fuel + 1) st = some (Conn.Close st1, err) := by
  simp [Conn.Process, Conn.Process.loop, h]

/-- The effect of `onReceive` is confined to the handler log and the writes, and is
determined by them. -/
theorem onReceive_frame (env : Env) (msg : Message) (st st' : State)
    (hl : st'.handlerLog = st.handlerLog) (hw : st'.written = st.written) :
    Conn.onReceive env st' msg =
      ({ st' with
          handlerLog := (Conn.onReceive env st msg).1.handlerLog,
          written := (Conn.onReceive env st msg).1.written },
        (Conn.onReceive env st msg).2) := by
  cases msg with
  | Publish packet =>
    simp only [Conn.onReceive, encodeTo_match, hl, hw]
    split_ifs <;> simp [← hl]
  | Connect packet => simp only [Conn.onReceive, encodeTo_match, hl, hw]
  | Subscribe packet => simp only [Conn.onReceive, encodeTo_match, hl, hw, subscribeEach_eq]
  | Unsubscribe packet => simp only [Conn.onReceive, encodeTo_match, hl, hw]
  | Pingreq => simp [Conn.onReceive, encodeTo_match, hl, hw]
  | Disconnect => simp [Conn.onReceive, ← hl, ← hw]
  | Other t => simp [Conn.onReceive, ← hl, ← hw]

theorem onReceive_self (env : Env) (msg : Message) (st : State) :
    (Conn.onReceive env st msg).1 =
      { st with
          handlerLog := (Conn.onReceive env st msg).1.handlerLog,
          written := (Conn.onReceive env st msg).1.written } := by
  have := onReceive_frame env msg st st rfl rfl
  exact congrArg Prod.fst this

theorem onReceive_unthrottled (env : Env) (msg : Message) (st : State) :
    Conn.onReceive env.unthrottled st msg = Conn.onReceive env st msg := by
  cases msg <;> rfl

/-- A run of the loop, with the throttled passes left out, is a run of the loop
with a limiter that never throttles, and ends in the same session state with the
same error. -/
theorem loop_unthrottled (env : Env) (maxSize : Int) :
    ∀ (fuel : Nat) (st st' f : State) (err : Option Err),
      st'.session = st.session →
      Conn.Process.loop env maxSize fuel st = some (f, err) →
        ∃ k f', k ≤ fuel ∧ Conn.Process.loop env.unthrottled maxSize k st' = some (f', err)
          ∧ f'.session = f.session ∧ f'.sleeps = st'.sleeps := by
  intro fuel
  induction fuel with
  | zero => intro st st' f err _ h; simp [Conn.Process.loop] at h
  | succ n ih =>
    intro st st' f err hs h
    have hs' := hs
    simp only [State.session, Prod.mk.injEq] at hs'
    obtain ⟨hdec, hlog, hwr, hcl, hco⟩ := hs'
    cases hl : env.Limit st.limitCalls with
    | true =>
      simp only [Conn.Process.loop, iteration_throttled env maxSize st hl] at h
      obtain ⟨k, f', hk, hrun, hsess, hsl⟩ := ih st.afterThrottle st' f err (by rw [hs]; rfl) h
      exact ⟨k, f', Nat.le_succ_of_le hk, hrun, hsess, hsl⟩
    | false =>
      have hl' : env.unthrottled.Limit st'.limitCalls = false := rfl
      cases hd : env.DecodePacket st.decoded.length maxSize with
      | error e =>
        have hd' : env.unthrottled.DecodePacket st'.decoded.length maxSize = Except.error e := by
          rw [hdec]; exact hd
        simp only [Conn.Process.loop, iteration_decodeError env maxSize st e hl hd,
          Option.some.injEq, Prod.mk.injEq] at h
        obtain ⟨rfl, rfl⟩ := h
        refine ⟨1, st'.afterDecode (Except.error e), by omega, ?_, ?_, rfl⟩
        · simp only [Conn.Process.loop, iteration_decodeError env.unthrottled maxSize st' e hl' hd']
        · simp [State.session, State.afterDecode, hdec, hlog, hwr, hcl, hco]
      | ok msg =>
        have hd' : env.unthrottled.DecodePacket st'.decoded.length maxSize = Except.ok msg := by
          rw [hdec]; exact hd
        have hfr := onReceive_frame env msg (st.afterDecode (Except.ok msg))
          (st'.afterDecode (Except.ok msg)) hlog hwr
        have hself := onReceive_self env msg (st.afterDecode (Except.ok msg))
        have hit' := iteration_received env.unthrottled maxSize st' msg hl' hd'
        rw [onReceive_unthrottled, hfr] at hit'
        have hsess : State.session
            { st'.afterDecode (Except.ok msg) with
              handlerLog := (Conn.onReceive env (st.afterDecode (Except.ok msg)) msg).1.handlerLog,
              written := (Conn.onReceive env (st.afterDecode (Except.ok msg)) msg).1.written } =
            State.session (Conn.onReceive env (st.afterDecode (Except.ok msg)) msg).1 := by
          rw [hself]
          simp [State.session, State.afterDecode, hdec, hcl, hco]
        simp only [Conn.Process.loop, iteration_received env maxSize st msg hl hd] at h
        cases hr : (Conn.onReceive env (st.afterDecode (Except.ok msg)) msg).2 with
        | none =>
          simp only [hr] at h hit'
          obtain ⟨k, f', hk, hrun, hfs, hsl⟩ := ih _ _ f err hsess h
          refine ⟨k + 1, f', by omega, ?_, hfs, ?_⟩
          · simp only [Conn.Process.loop, hit']
            exact hrun
          · rw [hsl]; rfl
        | some e =>
          simp only [hr, Option.some.injEq, Prod.mk.injEq] at h hit'
          obtain ⟨rfl, rfl⟩ := h
          refine ⟨1, _, by omega, ?_, hsess, rfl⟩
          simp only [Conn.Process.loop, hit']

theorem process_some (env : Env) (c : Conn) (fuel : Nat) (st f : State) (err : Option Err)
    (h : Conn.Process env c fuel st = some (f, err)) :
    ∃ st1, Conn.Process.loop env c.service.config.MaxMessageBytes fuel st = some (st1, err)
      ∧ f = Conn.Close st1 := by
  unfold Conn.Process at h
  cases hloop : Conn.Process.loop env c.service.config.MaxMessageBytes fuel st with
  | none => simp [hloop] at h
  | some r =>
    obtain ⟨st1, e⟩ := r
    simp only [hloop, Option.some.injEq, Prod.mk.injEq] at h
    obtain ⟨rfl, rfl⟩ := h
    exact ⟨st1, rfl, rfl⟩

theorem process_of_loop (env : Env) (c : Conn) (fuel : Nat) (st st1 : State) (err : Option Err)
    (h : Conn.Process.loop env c.service.config.MaxMessageBytes fuel st = some (st1, err)) :
    Conn.Process env c fuel st = some (Conn.Close st1, err) := by
  simp [Conn.Process, h]

theorem close_session (f f' : State) (h : f'.session = f.session) :
    (Conn.Close f').session = (Conn.Close f).session := by
  simp only [State.session, Prod.mk.injEq] at h
  obtain ⟨h1, h2, h3, h4, h5⟩ := h
  simp [State.session, Conn.Close, h1, h2, h3, h4, h5]

theorem wrapInt64_of_range (x : Int) (hlo : -2 ^ 63 ≤ x) (hhi : x < 2 ^ 63) :
    wrapInt64 x = x := by
  unfold wrapInt64
  norm_num at hlo hhi ⊢
  omega

/-! ### Runs with panics -/

/-- Writing the outcome of a write back out, as `onReceive` does, changes nothing. -/
theorem unwind_encodeTo_match (panics : Panics) (env : Env) (st : State) (ack : Ack) :
    (match Unwind.EncodeTo panics env st ack with
      | Outcome.panicked st2 => Outcome.panicked st2
      | Outcome.returned st2 (some err) => Outcome.returned st2 (some err)
      | Outcome.returned st2 none => Outcome.returned st2 none) =
    Unwind.EncodeTo panics env st ack := by
  rcases h : Unwind.EncodeTo panics env st ack with ⟨st2, _ | err⟩ | st2 <;> rfl

theorem unwind_encodeTo_state (panics : Panics) (env : Env) (st : State) (ack : Ack) :
    (Unwind.EncodeTo panics env st ack).state.closed = st.closed
      ∧ (Unwind.EncodeTo panics env st ack).state.connections = st.connections := by
  unfold Unwind.EncodeTo
  split_ifs <;> exact ⟨rfl, rfl⟩

theorem unwind_subscribeEach_state (panics : Panics) (h : MQTTHandler)
    (subs : List TopicQOSTuple) :
    ∀ st qos, (Unwind.subscribeEach panics h subs st qos).state.closed = st.closed
      ∧ (Unwind.subscribeEach panics h subs st qos).state.connections = st.connections := by
  induction subs with
  | nil => intro st qos; exact ⟨rfl, rfl⟩
  | cons sub rest ih =>
    intro st qos
    unfold Unwind.subscribeEach
    split_ifs
    · exact ⟨rfl, rfl⟩
    · split
      · exact ih _ _
      · exact ih _ _

theorem unwind_unsubscribeEach_state (panics : Panics) (h : MQTTHandler)
    (subs : List TopicQOSTuple) :
    ∀ st, (Unwind.unsubscribeEach panics h subs st).state.closed = st.closed
      ∧ (Unwind.unsubscribeEach panics h subs st).state.connections = st.connections := by
  induction subs with
  | nil => intro st; exact ⟨rfl, rfl⟩
  | cons sub rest ih =>
    intro st
    unfold Unwind.unsubscribeEach
    split_ifs
    · exact ⟨rfl, rfl⟩
    · split
      · exact ih _
      · exact ih _

/-- However `onReceive` ends, it has not touched `closed` or the connection counter. -/
theorem unwind_onReceive_state (panics : Panics) (env : Env) (st : State) (msg : Message) :
    (Unwind.Conn.onReceive panics env st msg).state.closed = st.closed
      ∧ (Unwind.Conn.onReceive panics env st msg).state.connections = st.connections := by
  cases msg with
  | Connect packet =>
    simp only [Unwind.Conn.onReceive, unwind_encodeTo_match]
    split_ifs <;> first | exact ⟨rfl, rfl⟩ | exact unwind_encodeTo_state panics env _ _
  | Subscribe packet =>
    simp only [Unwind.Conn.onReceive, unwind_encodeTo_match]
    have hs := unwind_subscribeEach_state panics env.handler packet.Subscriptions st []
    rcases hr : Unwind.subscribeEach panics env.handler packet.Subscriptions st []
      with ⟨st1, qos⟩ | st1
    · rw [hr] at hs
      have he := unwind_encodeTo_state panics env st1 (Ack.Suback packet.MessageID qos)
      exact ⟨he.1.trans hs.1, he.2.trans hs.2⟩
    · rw [hr] at hs
      exact hs
  | Unsubscribe packet =>
    simp only [Unwind.Conn.onReceive, unwind_encodeTo_match]
    have hs := unwind_unsubscribeEach_state panics env.handler packet.Topics st
    rcases hr : Unwind.unsubscribeEach panics env.handler packet.Topics st with ⟨st1, u⟩ | st1
    · rw [hr] at hs
      have he := unwind_encodeTo_state panics env st1 (Ack.Unsuback packet.MessageID)
      exact ⟨he.1.trans hs.1, he.2.trans hs.2⟩
    · rw [hr] at hs
      exact hs
  | Pingreq =>
    simp only [Unwind.Conn.onReceive, unwind_encodeTo_match]
    exact unwind_encodeTo_state panics env _ _
  | Disconnect => exact ⟨rfl, rfl⟩
  | Other t => exact ⟨rfl, rfl⟩
  | Publish packet =>
    simp only [Unwind.Conn.onReceive, unwind_encodeTo_match]
    split_ifs
    · exact ⟨rfl, rfl⟩
    · exact unwind_encodeTo_state panics env _ _
    · exact ⟨rfl, rfl⟩

/-- However a pass of the loop ends, it has not touched `closed` or the connection
counter. -/
theorem unwind_iteration_state (panics : Panics) (env : Env) (maxSize : Int) (st : State) :
    (Unwind.Conn.Process.iteration panics env maxSize st).state.closed = st.closed
      ∧ (Unwind.Conn.Process.iteration panics env maxSize st).state.connections =
          st.connections := by
  unfold Unwind.Conn.Process.iteration
  simp only []
  split_ifs
  · exact ⟨rfl, rfl⟩
  · exact ⟨rfl, rfl⟩
  · exact ⟨rfl, rfl⟩
  · exact ⟨rfl, rfl⟩
  · cases hd : env.DecodePacket st.decoded.length maxSize with
    | error e => exact ⟨rfl, rfl⟩
    | ok msg =>
      simp only []
      have h := unwind_onReceive_state panics env
        { st with
          deadlines := st.deadlines + 1,
          limitCalls := st.limitCalls + 1,
          decoded := st.decoded ++ [Except.ok msg] } msg
      rcases hr : Unwind.Conn.onReceive panics env
        { st with
          deadlines := st.deadlines + 1,
          limitCalls := st.limitCalls + 1,
          decoded := st.decoded ++ [Except.ok msg] } msg with ⟨st4, _ | err⟩ | st4 <;>
        rw [hr] at h <;> exact h

/-- However the loop is left, by `return err` or by a panic, it has not touched `closed`
or the connection counter. -/
theorem unwind_loop_state (panics : Panics) (env : Env) (maxSize : Int) :
    ∀ (fuel : Nat) (st : State) (out : Outcome (Option Err)),
      Unwind.Conn.Process.loop panics env maxSize fuel st = some out →
        out.state.closed = st.closed ∧ out.state.connections = st.connections := by
  intro fuel
  induction fuel with
  | zero => intro st out h; simp [Unwind.Conn.Process.loop] at h
  | succ n ih =>
    intro st out h
    have hit := unwind_iteration_state panics env maxSize st
    unfold Unwind.Conn.Process.loop at h
    rcases hs : Unwind.Conn.Process.iteration panics env maxSize st with st1 | ⟨st1, err⟩ | st1
    · rw [hs] at h hit
      obtain ⟨h1, h2⟩ := ih st1 out h
      exact ⟨h1.trans hit.1, h2.trans hit.2⟩
    · rw [hs] at h hit
      simp only [Option.some.injEq] at h
      subst h
      exact hit
    · rw [hs] at h hit
      simp only [Option.some.injEq] at h
      subst h
      exact hit

/-- A run of `Process` that ends is a run of the loop that is left, followed by `Close`. -/
theorem unwind_process_some (panics : Panics) (env : Env) (c : Conn) (fuel : Nat)
    (st f : State) (err : Option Err)
    (h : Unwind.Conn.Process panics env c fuel st = some (f, err)) :
    ∃ out, Unwind.Conn.Process.loop panics env c.service.config.MaxMessageBytes fuel st =
        some out ∧ f = Conn.Close out.state := by
  unfold Unwind.Conn.Process at h
  rcases hloop : Unwind.Conn.Process.loop panics env c.service.config.MaxMessageBytes fuel st
    with _ | ⟨st1, e⟩ | st1
  · simp [hloop] at h
  · simp only [hloop, Option.some.injEq, Prod.mk.injEq] at h
    exact ⟨_, rfl, h.1.symm⟩
  · simp only [hloop, Option.some.injEq, Prod.mk.injEq] at h
    exact ⟨_, rfl, h.1.symm⟩

theorem unwind_process_of_next (panics : Panics) (env : Env) (c : Conn) (fuel : Nat)
    (st st1 : State)
    (h : Unwind.Conn.Process.iteration panics env c.service.config.MaxMessageBytes st =
      Unwind.Step.next st1) :
    Unwind.Conn.Process panics env c (fuel + 1) st = Unwind.Conn.Process panics env c fuel st1 := by
  simp [Unwind.Conn.Process, Unwind.Conn.Process.loop, h]

/-! ### Runs without panics are the runs of `Conn.Process` -/

theorem unwind_subscribeEach_of_no_panic (h : MQTTHandler) (subs : List TopicQOSTuple) :
    ∀ st qos, Unwind.subscribeEach noPanic h subs st qos =
      Outcome.returned { st with handlerLog := (subscribeEach h subs st.handlerLog qos).1 }
        (subscribeEach h subs st.handlerLog qos).2 := by
  induction subs with
  | nil => intro st qos; rfl
  | cons sub rest ih =>
    intro st qos
    unfold Unwind.subscribeEach subscribeEach
    cases hr : h.OnSubscribe st.handlerLog sub.Topic <;> simp [noPanic, ih]

theorem unwind_unsubscribeEach_of_no_panic (h : MQTTHandler) (subs : List TopicQOSTuple) :
    ∀ st, Unwind.unsubscribeEach noPanic h subs st =
      Outcome.returned { st with handlerLog := unsubscribeEach h subs st.handlerLog } () := by
  induction subs with
  | nil => intro st; rfl
  | cons sub rest ih =>
    intro st
    unfold Unwind.unsubscribeEach unsubscribeEach
    cases hr : h.OnUnsubscribe st.handlerLog sub.Topic <;> simp [noPanic, ih]

theorem unwind_encodeTo_of_no_panic (env : Env) (st : State) (ack : Ack) :
    Unwind.EncodeTo noPanic env st ack =
      Outcome.returned (EncodeTo env st ack).1 (EncodeTo env st ack).2 := by
  simp [Unwind.EncodeTo, EncodeTo, noPanic]

/-- When no call panics, `onReceive` returns what `Conn.onReceive` says. -/
theorem unwind_onReceive_of_no_panic (env : Env) (st : State) (msg : Message) :
    Unwind.Conn.onReceive noPanic env st msg =
      Outcome.returned (Conn.onReceive env st msg).1 (Conn.onReceive env st msg).2 := by
  cases msg with
  | Connect packet =>
    simp only [Unwind.Conn.onReceive, unwind_encodeTo_match, Conn.onReceive, encodeTo_match]
    simp [unwind_encodeTo_of_no_panic, EncodeTo, noPanic]
  | Subscribe packet =>
    simp only [Unwind.Conn.onReceive, unwind_encodeTo_match, Conn.onReceive, encodeTo_match,
      unwind_subscribeEach_of_no_panic]
    simp [unwind_encodeTo_of_no_panic, EncodeTo]
  | Unsubscribe packet =>
    simp only [Unwind.Conn.onReceive, unwind_encodeTo_match, Conn.onReceive, encodeTo_match,
      unwind_unsubscribeEach_of_no_panic]
    simp [unwind_encodeTo_of_no_panic, EncodeTo]
  | Pingreq =>
    simp only [Unwind.Conn.onReceive, unwind_encodeTo_match, Conn.onReceive, encodeTo_match]
    simp [unwind_encodeTo_of_no_panic, EncodeTo]
  | Disconnect => rfl
  | Other t => rfl
  | Publish packet =>
    simp only [Unwind.Conn.onReceive, unwind_encodeTo_match, Conn.onReceive, encodeTo_match]
    split_ifs <;> simp_all [unwind_encodeTo_of_no_panic, EncodeTo, noPanic]

/-- When no call panics, a pass of the loop ends as `Conn.Process.iteration` says. -/
theorem unwind_iteration_of_no_panic (env : Env) (maxSize : Int) (st : State) :
    Unwind.Conn.Process.iteration noPanic env maxSize st =
      (match Conn.Process.iteration env maxSize st with
        | Step.next st1 => Unwind.Step.next st1
        | Step.ret st1 err => Unwind.Step.ret st1 err) := by
  unfold Unwind.Conn.Process.iteration Conn.Process.iteration
  simp only [noPanic, Bool.false_eq_true, if_false, unwind_onReceive_of_no_panic]
  split_ifs
  · rfl
  · cases env.DecodePacket st.decoded.length maxSize with
    | error e => rfl
    | ok msg =>
      simp only
      rcases Conn.onReceive env _ msg with ⟨st4, _ | err⟩ <;> rfl

/-- When no call panics, the loop is left as `Conn.Process.loop` says. -/
theorem unwind_loop_of_no_panic (env : Env) (maxSize : Int) :
    ∀ (fuel : Nat) (st : State),
      Unwind.Conn.Process.loop noPanic env maxSize fuel st =
        (Conn.Process.loop env maxSize fuel st).map (fun r => Outcome.returned r.1 r.2) := by
  intro fuel
  induction fuel with
  | zero => intro st; rfl
  | succ n ih =>
    intro st
    unfold Unwind.Conn.Process.loop Conn.Process.loop
    rw [unwind_iteration_of_no_panic]
    cases Conn.Process.iteration env maxSize st with
    | next st1 => exact ih st1
    | ret st1 err => rfl

/-- When no call panics, `Process` is `Conn.Process`. -/
theorem unwind_process_of_no_panic (env : Env) (c : Conn) (fuel : Nat) (st : State) :
    Unwind.Conn.Process noPanic env c fuel st = Conn.Process env c fuel st := by
  unfold Unwind.Conn.Process Conn.Process
  simp only [unwind_loop_of_no_panic]
  rcases Conn.Process.loop env c.service.config.MaxMessageBytes fuel st with _ | ⟨st1, err⟩ <;> rfl

/-! ## The examples of the specification -/

/-- A Subscribe with three topics of which the handler rejects the second: one Suback,
with the result list `[0, 0x80, 2]` in request order, and three handler calls. -/
theorem subscribe_example :
    Conn.onReceive eofSession State.init
        (Message.Subscribe ⟨7, [⟨0, "a"⟩, ⟨1, "b"⟩, ⟨2, "c"⟩]⟩) =
      ({ State.init with
          handlerLog := [HandlerCall.OnSubscribe "a" none,
            HandlerCall.OnSubscribe "b" (some "forbidden"), HandlerCall.OnSubscribe "c" none],
          written := [(Ack.Suback 7 [0, 0x80, 2], none)] }, none) := by
  decide

/-- A Publish with QoS 0 is not acknowledged; a Publish with QoS 1 and identifier 9 gets
one Puback with identifier 9. -/
theorem publish_example :
    (Conn.onReceive eofSession State.init (Message.Publish ⟨⟨0⟩, 9, "a", "x"⟩)).1.written = []
      ∧ (Conn.onReceive eofSession State.init (Message.Publish ⟨⟨1⟩, 9, "a", "x"⟩)).1.written =
          [(Ack.Puback 9, none)] := by
  decide

/-- An accepted connection whose peer sends a Connect the handler rejects and then goes
away: a Connack with code `0x05` is written, the next read is attempted, and the counter
is back at 0 after the teardown. -/
theorem rejected_example :
    Conn.Process rejectedSession (exampleService.newConn State.init 0).1 2
        (exampleService.newConn State.init 0).2 =
      some ({ connections := 0, deadlines := 2, limitCalls := 2, sleeps := 0,
              decoded := [Except.ok (Message.Connect ⟨"mallory", "x"⟩), Except.error "EOF"],
              handlerLog := [HandlerCall.OnConnect ⟨"mallory", "x"⟩ (some "unauthorized")],
              written := [(Ack.Connack 0x05, none)],
              closed := 1 }, some "EOF") := by
  decide

/-- An accepted connection whose handler panics in `OnPublish`: the loop is abandoned
before any acknowledgement is written, the deferred `Close` runs once, the counter is
back at 0, and `Process` returns nil. -/
theorem panic_example :
    Unwind.Conn.Process panicOnPublish publishSession (exampleService.newConn State.init 0).1 1
        (exampleService.newConn State.init 0).2 =
      some ({ connections := 0, deadlines := 1, limitCalls := 1, sleeps := 0,
              decoded := [Except.ok (Message.Publish ⟨⟨1⟩, 9, "a", "x"⟩)],
              handlerLog := [],
              written := [],
              closed := 1 }, none) := by
  decide

/-- The same session with a handler that does not panic: the publish and the ping are
acknowledged and the run ends at the third read, as `Conn.Process` says. -/
theorem no_panic_example :
    Unwind.Conn.Process noPanic publishSession exampleConn 3 State.init =
        Conn.Process publishSession exampleConn 3 State.init
      ∧ Conn.Process publishSession exampleConn 3 State.init =
        some ({ connections := -1, deadlines := 3, limitCalls := 3, sleeps := 0,
                decoded := [Except.ok (Message.Publish ⟨⟨1⟩, 9, "a", "x"⟩),
                  Except.ok Message.Pingreq, Except.error "EOF"],
                handlerLog := [HandlerCall.OnPublish ⟨⟨1⟩, 9, "a", "x"⟩ none],
                written := [(Ack.Puback 9, none), (Ack.Pingresp, none)],
                closed := 1 }, some "EOF") := by
  decide

/-! ## Claims -/

/-- C1: `MaxMessageBytes` returns `Limit.MessageSize` when it lies in `(0, 65536]` and
`65536` otherwise; so size 0 gives 65536, 70000 gives 65536, 1000 gives 1000 and every
negative size gives 65536; the result always lies in `(0, 65536]`. -/
theorem MaxMessageBytes_clamped (c : Config) :
    c.MaxMessageBytes =
        (if 0 < c.Limit.MessageSize ∧ c.Limit.MessageSize ≤ 65536 then c.Limit.MessageSize
         else 65536)
      ∧ 0 < c.MaxMessageBytes ∧ c.MaxMessageBytes ≤ 65536
      ∧ (∀ r f a, Config.MaxMessageBytes ⟨⟨0, r, f⟩, a⟩ = 65536)
      ∧ (∀ r f a, Config.MaxMessageBytes ⟨⟨70000, r, f⟩, a⟩ = 65536)
      ∧ (∀ r f a, Config.MaxMessageBytes ⟨⟨1000, r, f⟩, a⟩ = 1000)
      ∧ (∀ (n : Nat) r f a, Config.MaxMessageBytes ⟨⟨-((n : Int) + 1), r, f⟩, a⟩ = 65536) := by
  refine ⟨?_, ?_, ?_, ?_, ?_, ?_, ?_⟩
  · unfold Config.MaxMessageBytes maxMessageSize
    split_ifs <;> omega
  · unfold Config.MaxMessageBytes maxMessageSize
    split_ifs <;> omega
  · unfold Config.MaxMessageBytes maxMessageSize
    split_ifs <;> omega
  · intro r f a; simp [Config.MaxMessageBytes, maxMessageSize]
  · intro r f a; simp [Config.MaxMessageBytes, maxMessageSize]
  · intro r f a; simp [Config.MaxMessageBytes, maxMessageSize]
  · intro n r f a
    unfold Config.MaxMessageBytes maxMessageSize
    have : -((n : Int) + 1) ≤ 0 := by omega
    rw [if_pos (Or.inl this)]

/-- C2: on a Subscribe with subscription list `S`, `onReceive` calls `OnSubscribe` once per
entry of `S`, in request order (the handler log grows by exactly these calls, the `i`-th
result being the handler's answer after the first `i` calls), whatever the earlier calls
returned, and writes exactly one Suback with the Subscribe's `MessageID` whose `Qos` list
has length `len(S)`, entry `i` being `0x80` if `OnSubscribe` failed on `S[i].Topic` and
`S[i].Qos` otherwise; it returns the error of that write. -/
theorem onReceive_subscribe (env : Env) (st : State) (packet : Subscribe) :
    ∃ results : List (Option Err),
      results.length = packet.Subscriptions.length
      ∧ (∀ i sub, packet.Subscriptions[i]? = some sub →
          results[i]? = some (env.handler.OnSubscribe
            (st.handlerLog ++ (List.zipWith (fun sub r => HandlerCall.OnSubscribe sub.Topic r)
              packet.Subscriptions results).take i) sub.Topic))
      ∧ (List.zipWith (fun sub r => if r = none then sub.Qos else 0x80)
            packet.Subscriptions results).length = packet.Subscriptions.length
      ∧ Conn.onReceive env st (Message.Subscribe packet) =
          ({ st with
              handlerLog := st.handlerLog ++
                List.zipWith (fun sub r => HandlerCall.OnSubscribe sub.Topic r)
                  packet.Subscriptions results,
              written := st.written ++
                [(Ack.Suback packet.MessageID
                    (List.zipWith (fun sub r => if r = none then sub.Qos else 0x80)
                      packet.Subscriptions results),
                  env.EncodeTo st.written (Ack.Suback packet.MessageID
                    (List.zipWith (fun sub r => if r = none then sub.Qos else 0x80)
                      packet.Subscriptions results)))] },
            env.EncodeTo st.written (Ack.Suback packet.MessageID
              (List.zipWith (fun sub r => if r = none then sub.Qos else 0x80)
                packet.Subscriptions results))) := by
  refine ⟨subscribeResults env.handler packet.Subscriptions st.handlerLog,
    subscribeResults_length _ _ _, subscribeResults_getElem _ _ _, ?_, ?_⟩
  · simp [subscribeResults_length]
  · simp only [Conn.onReceive, subscribeEach_eq, encodeTo_match, List.nil_append]

/-- C8: on an Unsubscribe with topic list `T`, `onReceive` calls `OnUnsubscribe` once per
topic of `T`, in order (the handler log grows by exactly these calls), and, whatever those
calls returned and also when `T` is empty, writes exactly one Unsuback with the
Unsubscribe's `MessageID`; what it returns is the error of that write, never a
handler error. -/
theorem onReceive_unsubscribe (env : Env) (st : State) (packet : Unsubscribe) :
    ∃ results : List (Option Err),
      results.length = packet.Topics.length
      ∧ (∀ i sub, packet.Topics[i]? = some sub →
          results[i]? = some (env.handler.OnUnsubscribe
            (st.handlerLog ++ (List.zipWith (fun sub r => HandlerCall.OnUnsubscribe sub.Topic r)
              packet.Topics results).take i) sub.Topic))
      ∧ Conn.onReceive env st (Message.Unsubscribe packet) =
          ({ st with
              handlerLog := st.handlerLog ++
                List.zipWith (fun sub r => HandlerCall.OnUnsubscribe sub.Topic r)
                  packet.Topics results,
              written := st.written ++
                [(Ack.Unsuback packet.MessageID,
                  env.EncodeTo st.written (Ack.Unsuback packet.MessageID))] },
            env.EncodeTo st.written (Ack.Unsuback packet.MessageID))
      ∧ (∀ id : Nat,
          Conn.onReceive env st (Message.Unsubscribe ⟨id, []⟩) =
            ({ st with
                written := st.written ++
                  [(Ack.Unsuback id, env.EncodeTo st.written (Ack.Unsuback id))] },
              env.EncodeTo st.written (Ack.Unsuback id))) := by
  refine ⟨unsubscribeResults env.handler packet.Topics st.handlerLog,
    unsubscribeResults_length _ _ _, unsubscribeResults_getElem _ _ _, ?_, ?_⟩
  · simp only [Conn.onReceive, unsubscribeEach_eq, encodeTo_match]
  · intro id
    simp only [Conn.onReceive, unsubscribeEach, encodeTo_match]

/-- C5: on a Publish, `onReceive` calls `OnPublish` exactly once and does not look at what
it returned (with any other handler the writes and the returned error are the same); with
QoS 0 it writes nothing and returns nil, with QoS greater than 0 it writes exactly one
Puback carrying the publish's `MessageID` and returns the error of that write. -/
theorem onReceive_publish (env : Env) (st : State) (packet : Publish) :
    (Conn.onReceive env st (Message.Publish packet)).1.handlerLog =
        st.handlerLog ++
          [HandlerCall.OnPublish packet (env.handler.OnPublish st.handlerLog packet)]
      ∧ Conn.onReceive env st (Message.Publish packet) =
        (if packet.Header.QOS > 0 then
          ({ st with
              handlerLog := st.handlerLog ++
                [HandlerCall.OnPublish packet (env.handler.OnPublish st.handlerLog packet)],
              written := st.written ++
                [(Ack.Puback packet.MessageID,
                  env.EncodeTo st.written (Ack.Puback packet.MessageID))] },
            env.EncodeTo st.written (Ack.Puback packet.MessageID))
        else
          ({ st with
              handlerLog := st.handlerLog ++
                [HandlerCall.OnPublish packet (env.handler.OnPublish st.handlerLog packet)] },
            none))
      ∧ (∀ h : MQTTHandler,
          (Conn.onReceive { env with handler := h } st (Message.Publish packet)).1.written =
              (Conn.onReceive env st (Message.Publish packet)).1.written
            ∧ (Conn.onReceive { env with handler := h } st (Message.Publish packet)).2 =
              (Conn.onReceive env st (Message.Publish packet)).2) := by
  refine ⟨?_, ?_, ?_⟩
  · simp only [Conn.onReceive, encodeTo_match]
    split_ifs <;> rfl
  · simp only [Conn.onReceive, encodeTo_match]
  · intro h
    simp only [Conn.onReceive, encodeTo_match]
    split_ifs <;> exact ⟨rfl, rfl⟩

/-- C7: if, in a pass of the loop, decoding the next message fails with `e`, `Process`
returns `e` at once: no handler call and no write happen in that pass, no later message
is read (the failed read is the last decoder call), and `Close` runs. -/
theorem Process_decodeError (env : Env) (c : Conn) (st : State) (fuel : Nat) (e : Err)
    (hl : env.Limit st.limitCalls = false)
    (hd : env.DecodePacket st.decoded.length c.service.config.MaxMessageBytes = Except.error e) :
    ∃ f, Conn.Process env c (fuel + 1) st = some (f, some e)
      ∧ f = Conn.Close (st.afterDecode (Except.error e))
      ∧ f.handlerLog = st.handlerLog
      ∧ f.written = st.written
      ∧ f.decoded = st.decoded ++ [Except.error e]
      ∧ f.closed = st.closed + 1 := by
  refine ⟨_, process_of_ret env c fuel st _ _ (iteration_decodeError env _ st e hl hd),
    rfl, rfl, rfl, rfl, rfl⟩

/-- Witness of C7: the peer closes the transport before sending anything. -/
theorem Process_decodeError_witness :
    ∃ f, Conn.Process eofSession exampleConn (0 + 1) State.init = some (f, some "EOF")
      ∧ f = Conn.Close (State.init.afterDecode (Except.error "EOF"))
      ∧ f.handlerLog = State.init.handlerLog
      ∧ f.written = State.init.written
      ∧ f.decoded = State.init.decoded ++ [Except.error "EOF"]
      ∧ f.closed = State.init.closed + 1 :=
  Process_decodeError eofSession exampleConn State.init 0 "EOF" rfl rfl

/-- C10: in a pass of the loop in which the limiter reports the quota exhausted,
`Process` does not call the decoder, calls no handler operation, writes nothing and does
not return: it sleeps and starts the next pass.  So every run that ends is matched by a
run, in fewer passes, with a limiter that never throttles, which decodes the same
messages, makes the same handler calls and writes, and returns the same error. -/
theorem Process_throttled (env : Env) (c : Conn) (st : State) (fuel : Nat)
    (hl : env.Limit st.limitCalls = true) :
    Conn.Process.iteration env c.service.config.MaxMessageBytes st = Step.next st.afterThrottle
      ∧ st.afterThrottle.decoded = st.decoded
      ∧ st.afterThrottle.handlerLog = st.handlerLog
      ∧ st.afterThrottle.written = st.written
      ∧ st.afterThrottle.closed = st.closed
      ∧ st.afterThrottle.sleeps = st.sleeps + 1
      ∧ Conn.Process env c (fuel + 1) st = Conn.Process env c fuel st.afterThrottle
      ∧ (∀ n f err, Conn.Process env c n st = some (f, err) →
          ∃ k f', k < n ∧ Conn.Process env.unthrottled c k st = some (f', err)
            ∧ f'.session = f.session ∧ f'.sleeps = st.sleeps) := by
  have hit := iteration_throttled env c.service.config.MaxMessageBytes st hl
  refine ⟨hit, rfl, rfl, rfl, rfl, rfl, process_of_next env c fuel st _ hit, ?_⟩
  intro n f err hrun
  cases n with
  | zero => simp [Conn.Process, Conn.Process.loop] at hrun
  | succ m =>
    rw [process_of_next env c m st _ hit] at hrun
    obtain ⟨st1, hloop, rfl⟩ := process_some env c m _ _ _ hrun
    obtain ⟨k, f', hk, hrun', hsess, hsl⟩ :=
      loop_unthrottled env _ m st.afterThrottle st st1 err rfl hloop
    refine ⟨k, Conn.Close f', by omega, ?_, close_session _ _ hsess, ?_⟩
    · exact process_of_loop env.unthrottled c k st f' err hrun'
    · simpa [Conn.Close] using hsl

/-- Witness of C10: the first pass of `throttledSession` is throttled. -/
theorem Process_throttled_witness :
    Conn.Process throttledSession exampleConn (1 + 1) State.init =
      Conn.Process throttledSession exampleConn 1 State.init.afterThrottle :=
  (Process_throttled throttledSession exampleConn State.init 1 rfl).2.2.2.2.2.2.1

/-- Counterexample to C3: in `disconnectSession` the first message decoded is a
Disconnect, and the loop does not exit on it: the Connect sent after it is decoded and
dispatched (the handler is called and a Connack is written), and `Process` ends only at
the third read, with the error `"EOF"`, not with nil. -/
theorem Process_disconnect_counterexample :
    disconnectSession.Limit State.init.limitCalls = false
      ∧ disconnectSession.DecodePacket State.init.decoded.length
          exampleConn.service.config.MaxMessageBytes = Except.ok Message.Disconnect
      ∧ Conn.Process disconnectSession exampleConn 1 State.init = none
      ∧ Conn.Process disconnectSession exampleConn 3 State.init =
          some ({ connections := -1, deadlines := 3, limitCalls := 3, sleeps := 0,
                  decoded := [Except.ok Message.Disconnect,
                    Except.ok (Message.Connect ⟨"u", "p"⟩), Except.error "EOF"],
                  handlerLog := [HandlerCall.OnConnect ⟨"u", "p"⟩ none],
                  written := [(Ack.Connack 0, none)],
                  closed := 1 }, some "EOF")
      ∧ ¬ (∀ (env : Env) (c : Conn) (st : State) (fuel : Nat),
            env.Limit st.limitCalls = false →
            env.DecodePacket st.decoded.length c.service.config.MaxMessageBytes =
              Except.ok Message.Disconnect →
            ∃ f, Conn.Process env c (fuel + 1) st = some (f, none)
              ∧ f.decoded = st.decoded ++ [Except.ok Message.Disconnect]
              ∧ f.closed = st.closed + 1) := by
  refine ⟨rfl, rfl, by decide, by decide, ?_⟩
  intro h
  obtain ⟨f, hf, -, -⟩ := h disconnectSession exampleConn State.init 2 rfl rfl
  have hv : (Conn.Process disconnectSession exampleConn (2 + 1) State.init).map Prod.snd =
      some (some "EOF") := by decide
  rw [hf] at hv
  simp at hv

/-- C3, amended: when the loop decodes a Disconnect, `onReceive` calls no handler
operation, writes nothing and returns nil, and the loop does not exit: `Process` goes on
with the next pass.  Whenever the run ends after that, by a `return err` or by a panic
that the deferred `Close` recovers, `Close` has run exactly once. -/
theorem Process_disconnect (panics : Panics) (env : Env) (c : Conn) (st : State) (fuel : Nat)
    (hp1 : panics st Call.SetDeadline = false)
    (hp2 : panics { st with deadlines := st.deadlines + 1 } Call.Limit = false)
    (hl : env.Limit st.limitCalls = false)
    (hp3 : panics { st with deadlines := st.deadlines + 1, limitCalls := st.limitCalls + 1 }
      (Call.DecodePacket c.service.config.MaxMessageBytes) = false)
    (hd : env.DecodePacket st.decoded.length c.service.config.MaxMessageBytes =
      Except.ok Message.Disconnect) :
    (∀ s : State,
        Unwind.Conn.onReceive panics env s Message.Disconnect = Outcome.returned s none)
      ∧ Unwind.Conn.Process.iteration panics env c.service.config.MaxMessageBytes st =
          Unwind.Step.next (st.afterDecode (Except.ok Message.Disconnect))
      ∧ (st.afterDecode (Except.ok Message.Disconnect)).handlerLog = st.handlerLog
      ∧ (st.afterDecode (Except.ok Message.Disconnect)).written = st.written
      ∧ (st.afterDecode (Except.ok Message.Disconnect)).closed = st.closed
      ∧ Unwind.Conn.Process panics env c (fuel + 1) st =
          Unwind.Conn.Process panics env c fuel (st.afterDecode (Except.ok Message.Disconnect))
      ∧ (∀ n f err, Unwind.Conn.Process panics env c n st = some (f, err) →
          2 ≤ n ∧ f.closed = st.closed + 1) := by
  have hit : Unwind.Conn.Process.iteration panics env c.service.config.MaxMessageBytes st =
      Unwind.Step.next (st.afterDecode (Except.ok Message.Disconnect)) := by
    unfold Unwind.Conn.Process.iteration
    simp only [hp1, hp2, hp3, hl, hd, Bool.false_eq_true, if_false]
    rfl
  refine ⟨fun s => rfl, hit, rfl, rfl, rfl, unwind_process_of_next panics env c fuel st _ hit, ?_⟩
  intro n f err hrun
  obtain ⟨out, hloop, rfl⟩ := unwind_process_some panics env c n st f err hrun
  obtain ⟨hc, -⟩ := unwind_loop_state panics env _ n st out hloop
  refine ⟨?_, ?_⟩
  · match n, hloop with
    | 0, hloop => simp [Unwind.Conn.Process.loop] at hloop
    | 1, hloop => simp [Unwind.Conn.Process.loop, hit] at hloop
    | m + 2, _ => omega
  · show out.state.closed + 1 = st.closed + 1
    rw [hc]

/-- Witness of C3, amended: after the Disconnect of `disconnectPublishSession` the run
goes on, to the publish in which the handler panics. -/
theorem Process_disconnect_witness :
    Unwind.Conn.Process panicOnPublish disconnectPublishSession exampleConn (1 + 1) State.init =
      Unwind.Conn.Process panicOnPublish disconnectPublishSession exampleConn 1
        (State.init.afterDecode (Except.ok Message.Disconnect)) :=
  (Process_disconnect panicOnPublish disconnectPublishSession exampleConn State.init 1
    rfl rfl rfl rfl rfl).2.2.2.2.2.1

/-- C4: on a Connect, `onReceive` calls `OnConnect` and writes exactly one Connack, whose
`ReturnCode` is `0x00` when `OnConnect` returned nil and `0x05` when it returned an error,
and returns the error of that write.  In both cases, when the write succeeds, the pass of
the loop that decoded the Connect does not return: the session is not closed and `Process`
goes on with the next pass. -/
theorem Process_connect (env : Env) (c : Conn) (st : State) (packet : Connect) (fuel : Nat)
    (hl : env.Limit st.limitCalls = false)
    (hd : env.DecodePacket st.decoded.length c.service.config.MaxMessageBytes =
      Except.ok (Message.Connect packet))
    (hw : env.EncodeTo st.written
      (Ack.Connack (if env.handler.OnConnect st.handlerLog packet = none then 0x00 else 0x05)) =
        none) :
    (∀ s : State,
      Conn.onReceive env s (Message.Connect packet) =
        ({ s with
            handlerLog := s.handlerLog ++
              [HandlerCall.OnConnect packet (env.handler.OnConnect s.handlerLog packet)],
            written := s.written ++
              [(Ack.Connack (if env.handler.OnConnect s.handlerLog packet = none then 0x00 else 0x05),
                env.EncodeTo s.written (Ack.Connack
                  (if env.handler.OnConnect s.handlerLog packet = none then 0x00 else 0x05)))] },
          env.EncodeTo s.written (Ack.Connack
            (if env.handler.OnConnect s.handlerLog packet = none then 0x00 else 0x05))))
      ∧ Conn.Process.iteration env c.service.config.MaxMessageBytes st =
          Step.next
            { st.afterDecode (Except.ok (Message.Connect packet)) with
              handlerLog := st.handlerLog ++
                [HandlerCall.OnConnect packet (env.handler.OnConnect st.handlerLog packet)],
              written := st.written ++
                [(Ack.Connack
                    (if env.handler.OnConnect st.handlerLog packet = none then 0x00 else 0x05),
                  none)] }
      ∧ Conn.Process env c (fuel + 1) st =
          Conn.Process env c fuel
            { st.afterDecode (Except.ok (Message.Connect packet)) with
              handlerLog := st.handlerLog ++
                [HandlerCall.OnConnect packet (env.handler.OnConnect st.handlerLog packet)],
              written := st.written ++
                [(Ack.Connack
                    (if env.handler.OnConnect st.handlerLog packet = none then 0x00 else 0x05),
                  none)] } := by
  have hrecv : ∀ s : State,
      Conn.onReceive env s (Message.Connect packet) =
        ({ s with
            handlerLog := s.handlerLog ++
              [HandlerCall.OnConnect packet (env.handler.OnConnect s.handlerLog packet)],
            written := s.written ++
              [(Ack.Connack (if env.handler.OnConnect s.handlerLog packet = none then 0x00 else 0x05),
                env.EncodeTo s.written (Ack.Connack
                  (if env.handler.OnConnect s.handlerLog packet = none then 0x00 else 0x05)))] },
          env.EncodeTo s.written (Ack.Connack
            (if env.handler.OnConnect s.handlerLog packet = none then 0x00 else 0x05))) := by
    intro s
    simp only [Conn.onReceive, encodeTo_match]
    cases env.handler.OnConnect s.handlerLog packet <;> simp
  have hit : Conn.Process.iteration env c.service.config.MaxMessageBytes st =
      Step.next
        { st.afterDecode (Except.ok (Message.Connect packet)) with
          handlerLog := st.handlerLog ++
            [HandlerCall.OnConnect packet (env.handler.OnConnect st.handlerLog packet)],
          written := st.written ++
            [(Ack.Connack
                (if env.handler.OnConnect st.handlerLog packet = none then 0x00 else 0x05),
              none)] } := by
    rw [iteration_received env _ st _ hl hd, hrecv]
    have h1 : (st.afterDecode (Except.ok (Message.Connect packet))).handlerLog = st.handlerLog := rfl
    have h2 : (st.afterDecode (Except.ok (Message.Connect packet))).written = st.written := rfl
    simp only [h1, h2, hw]
  exact ⟨hrecv, hit, process_of_next env c fuel st _ hit⟩

/-- Witness of C4: the handler rejects the Connect of `rejectedSession`; a Connack with
code `0x05` is written and the run goes on. -/
theorem Process_connect_witness :
    Conn.Process rejectedSession exampleConn (1 + 1) State.init =
      Conn.Process rejectedSession exampleConn 1
        { State.init.afterDecode (Except.ok (Message.Connect ⟨"mallory", "x"⟩)) with
          handlerLog := [HandlerCall.OnConnect ⟨"mallory", "x"⟩ (some "unauthorized")],
          written := [(Ack.Connack 0x05, none)] } :=
  (Process_connect rejectedSession exampleConn State.init ⟨"mallory", "x"⟩ 1 rfl rfl rfl).2.2

/-- C9: when the message decoded in a pass of the loop is of a kind that is acknowledged
(Connect, Subscribe, Unsubscribe, PingRequest, Publish with QoS > 0), `onReceive` makes
exactly one write and returns its error; if that write fails with `e`, `Process` returns
`e` without reading any further message, the failed write is the last write (it is not
retried), and `Close` runs. -/
theorem Process_writeError (env : Env) (c : Conn) (st : State) (msg : Message) (fuel : Nat)
    (hl : env.Limit st.limitCalls = false)
    (hd : env.DecodePacket st.decoded.length c.service.config.MaxMessageBytes = Except.ok msg)
    (hack : msg.acknowledged = true) :
    ∃ ack,
      (Conn.onReceive env (st.afterDecode (Except.ok msg)) msg).1.written =
          st.written ++ [(ack, env.EncodeTo st.written ack)]
      ∧ (Conn.onReceive env (st.afterDecode (Except.ok msg)) msg).2 = env.EncodeTo st.written ack
      ∧ (∀ e, env.EncodeTo st.written ack = some e →
          ∃ f, Conn.Process env c (fuel + 1) st = some (f, some e)
            ∧ f.written = st.written ++ [(ack, some e)]
            ∧ f.decoded = st.decoded ++ [Except.ok msg]
            ∧ f.closed = st.closed + 1) := by
  have hself := onReceive_self env msg (st.afterDecode (Except.ok msg))
  have key : ∃ ack,
      (Conn.onReceive env (st.afterDecode (Except.ok msg)) msg).1.written =
          st.written ++ [(ack, env.EncodeTo st.written ack)]
      ∧ (Conn.onReceive env (st.afterDecode (Except.ok msg)) msg).2 =
          env.EncodeTo st.written ack := by
    cases msg with
    | Connect packet =>
      exact ⟨_, by simp only [Conn.onReceive, encodeTo_match]; rfl,
        by simp only [Conn.onReceive, encodeTo_match]; rfl⟩
    | Subscribe packet =>
      exact ⟨_, by simp only [Conn.onReceive, encodeTo_match]; rfl,
        by simp only [Conn.onReceive, encodeTo_match]; rfl⟩
    | Unsubscribe packet =>
      exact ⟨_, by simp only [Conn.onReceive, encodeTo_match]; rfl,
        by simp only [Conn.onReceive, encodeTo_match]; rfl⟩
    | Pingreq =>
      exact ⟨_, by simp only [Conn.onReceive, encodeTo_match]; rfl,
        by simp only [Conn.onReceive, encodeTo_match]; rfl⟩
    | Disconnect => simp [Message.acknowledged] at hack
    | Other t => simp [Message.acknowledged] at hack
    | Publish packet =>
      have hq : packet.Header.QOS > 0 := by simpa [Message.acknowledged] using hack
      exact ⟨Ack.Puback packet.MessageID,
        by simp only [Conn.onReceive, encodeTo_match, hq, if_true]; rfl,
        by simp only [Conn.onReceive, encodeTo_match, hq, if_true]; rfl⟩
  obtain ⟨ack, hwr, hret⟩ := key
  refine ⟨ack, hwr, hret, ?_⟩
  intro e he
  have hit : Conn.Process.iteration env c.service.config.MaxMessageBytes st =
      Step.ret (Conn.onReceive env (st.afterDecode (Except.ok msg)) msg).1 (some e) := by
    rw [iteration_received env _ st _ hl hd, hret, he]
  refine ⟨_, process_of_ret env c fuel st _ _ hit, ?_, ?_, ?_⟩
  · show (Conn.onReceive env (st.afterDecode (Except.ok msg)) msg).1.written = _
    rw [hwr, he]
  · show (Conn.onReceive env (st.afterDecode (Except.ok msg)) msg).1.decoded = _
    rw [hself]
    rfl
  · show (Conn.onReceive env (st.afterDecode (Except.ok msg)) msg).1.closed + 1 = _
    rw [hself]
    rfl

/-- Witness of C9: the Pingresp of `brokenPipeSession` cannot be written. -/
theorem Process_writeError_witness :
    ∃ ack,
      (Conn.onReceive brokenPipeSession
          (State.init.afterDecode (Except.ok Message.Pingreq)) Message.Pingreq).1.written =
          State.init.written ++ [(ack, brokenPipeSession.EncodeTo State.init.written ack)]
      ∧ (Conn.onReceive brokenPipeSession
          (State.init.afterDecode (Except.ok Message.Pingreq)) Message.Pingreq).2 =
          brokenPipeSession.EncodeTo State.init.written ack
      ∧ (∀ e, brokenPipeSession.EncodeTo State.init.written ack = some e →
          ∃ f, Conn.Process brokenPipeSession exampleConn (0 + 1) State.init = some (f, some e)
            ∧ f.written = State.init.written ++ [(ack, some e)]
            ∧ f.decoded = State.init.decoded ++ [Except.ok Message.Pingreq]
            ∧ f.closed = State.init.closed + 1) :=
  Process_writeError brokenPipeSession exampleConn State.init Message.Pingreq 0 rfl rfl rfl

/-- C6: the connection counter is balanced over the life of a session.  With the counter
an `int64` below its maximum, `newConn` adds exactly 1 to it; and whenever the `Process`
of the new connection ends, whichever way the loop was left (a decode error, a write
error, or a panic recovered by the deferred `Close`), the loop has left the counter and
the transport alone, `Close` has run exactly once and subtracted exactly 1, so the counter
is back at its value before `newConn`. -/
theorem connections_balanced (panics : Panics) (env : Env) (s : Service) (st : State)
    (readRate : Int) (fuel : Nat) (f : State) (err : Option Err)
    (hlo : -2 ^ 63 ≤ st.connections) (hhi : st.connections < 2 ^ 63 - 1)
    (hrun : Unwind.Conn.Process panics env (s.newConn st readRate).1 fuel
      (s.newConn st readRate).2 = some (f, err)) :
    (s.newConn st readRate).2.connections = st.connections + 1
      ∧ (s.newConn st readRate).2.closed = st.closed
      ∧ (∃ out, Unwind.Conn.Process.loop panics env s.config.MaxMessageBytes fuel
            (s.newConn st readRate).2 = some out
          ∧ out.state.connections = st.connections + 1
          ∧ out.state.closed = st.closed
          ∧ f = Conn.Close out.state
          ∧ f.connections = out.state.connections - 1
          ∧ f.closed = out.state.closed + 1)
      ∧ f.connections = st.connections
      ∧ f.closed = st.closed + 1 := by
  have hnew : (s.newConn st readRate).2.connections = st.connections + 1 := by
    show wrapInt64 (st.connections + 1) = st.connections + 1
    apply wrapInt64_of_range
    · norm_num at hlo ⊢; omega
    · norm_num at hhi ⊢; omega
  have hclosed : (s.newConn st readRate).2.closed = st.closed := rfl
  obtain ⟨out, hloop, rfl⟩ := unwind_process_some panics env _ fuel _ _ _ hrun
  obtain ⟨h2, h3⟩ := unwind_loop_state panics env _ fuel _ _ hloop
  have hc1 : out.state.connections = st.connections + 1 := h3.trans hnew
  have hcl1 : out.state.closed = st.closed := h2.trans hclosed
  have hsub : (Conn.Close out.state).connections = out.state.connections - 1 := by
    show wrapInt64 (out.state.connections - 1) = out.state.connections - 1
    apply wrapInt64_of_range
    · rw [hc1]; norm_num at hlo ⊢; omega
    · rw [hc1]; norm_num at hhi ⊢; omega
  refine ⟨hnew, hclosed, ⟨out, hloop, hc1, hcl1, rfl, hsub, rfl⟩, ?_, ?_⟩
  · rw [hsub, hc1]; omega
  · show out.state.closed + 1 = st.closed + 1
    rw [hcl1]

/-- Witness of C6: a connection is accepted and its handler panics in `OnPublish`. -/
theorem connections_balanced_witness :
    (Conn.Close ((exampleService.newConn State.init 0).2.afterDecode
        (Except.ok (Message.Publish ⟨⟨1⟩, 9, "a", "x"⟩)))).connections = State.init.connections
      ∧ (Conn.Close ((exampleService.newConn State.init 0).2.afterDecode
        (Except.ok (Message.Publish ⟨⟨1⟩, 9, "a", "x"⟩)))).closed = State.init.closed + 1 :=
  (connections_balanced panicOnPublish publishSession exampleService State.init 0 1
    (Conn.Close ((exampleService.newConn State.init 0).2.afterDecode
      (Except.ok (Message.Publish ⟨⟨1⟩, 9, "a", "x"⟩))))
    none (by decide) (by decide) (by decide)).2.2.2

end MqttTransport
